import Mathlib

/-!
Shallow embedding of the scraping / reconciliation core of the `py_huddle`
repository (basketball-bund.net scraper with PDF generation), together with
theorems settling the frozen claims about it.

Sources embedded:
* `src/pdf/generator.py`   — `PDFGenerator._lookup_birthday`, player-row handling
* `src/data/processing.py` — `DataProcessor.build_birthday_lookup`
* `src/api/archive.py`     — `BasketballArchive` (league pagination, teams,
                              Excel export games, HTML schedule page)
* `src/api/basketball.py`  — `BasketballClient._parse_liga_data`, `_parse_game_details`
* `app.py`                 — `retry_with_backoff`, `parse_date_only`, `generate_pdf`
                              player selection

Python strings are modelled as Lean `String`; `str.lower` is modelled for
ASCII letters plus the German umlauts that occur in this domain; `pandas`
missing values (`NaN`) are modelled as `Option.none`; HTML documents are
modelled as already-parsed structures at the BeautifulSoup boundary
(tables / rows / cells / hrefs), since the claims are about what the code
does with the parsed structures.
-/

namespace PyHuddle

/-- Model of Python `str.lower` for a single character: ASCII letters plus
the German umlauts that occur in the scraped data. -/
def pyLowerChar (c : Char) : Char :=
  if 'A' ≤ c ∧ c ≤ 'Z' then Char.ofNat (c.toNat + 32)
  else if c = 'Ä' then 'ä'
  else if c = 'Ö' then 'ö'
  else if c = 'Ü' then 'ü'
  else c

/-- Model of Python `str.lower`. -/
def pyLower (s : String) : String :=
  String.mk (s.data.map pyLowerChar)

/-- Whitespace set of Python `str.strip` / `str.split`. -/
def isPyWsChar (c : Char) : Bool :=
  c = ' ' || c = '\t' || c = '\n' || c = '\r' || c = '\x0b' || c = '\x0c'

/-- Model of Python `str.strip()` (no argument: strips whitespace). -/
def pyStrip (s : String) : String :=
  String.mk (((s.data.dropWhile isPyWsChar).reverse.dropWhile isPyWsChar).reverse)

/-- Prefix test on character lists (helper for the substring and affix
tests). -/
def isPrefixChars : List Char → List Char → Bool
  | [], _ => true
  | _ :: _, [] => false
  | a :: as, b :: bs => a = b && isPrefixChars as bs

/-- Substring occurrence on character lists (helper for the substring test). -/
def containsChars (needle : List Char) : List Char → Bool
  | [] => isPrefixChars needle []
  | c :: rest => isPrefixChars needle (c :: rest) || containsChars needle rest

/-- Model of Python `needle in haystack` for strings (substring test). -/
def strIn (needle haystack : String) : Bool :=
  containsChars needle.data haystack.data

/-- Splitting a character list at every occurrence of a separator character
(structural helper used to model `str.split(sep)`). -/
def splitOnCharAux (sep : Char) : List Char → List (List Char)
  | [] => [[]]
  | c :: rest =>
    let r := splitOnCharAux sep rest
    if c = sep then [] :: r
    else
      match r with
      | [] => [[c]]
      | h :: t => (c :: h) :: t

/-- Model of Python `str.split(sep)` for a one-character separator. -/
def splitOnChar (sep : Char) (s : String) : List String :=
  (splitOnCharAux sep s.data).map String.mk

/-- Model of Python `sep.join(parts)`. -/
def strJoin (sep : String) : List String → String
  | [] => ""
  | [x] => x
  | x :: xs => x ++ sep ++ strJoin sep xs

/-- Model of Python `str.startswith`. -/
def strStartsWith (s pre : String) : Bool :=
  isPrefixChars pre.data s.data

/-- Model of Python `str.endswith`. -/
def strEndsWith (s suffix : String) : Bool :=
  isPrefixChars suffix.data.reverse s.data.reverse

/-- Model of Python `str.split()` (no argument: split on whitespace runs,
dropping empty pieces). -/
def pySplitWs (s : String) : List String :=
  ((splitOnCharAux ' ' (s.data.map (fun c => if isPyWsChar c then ' ' else c))).map
    String.mk).filter (fun t => t ≠ "")

/-- Model of Python `str.rstrip('*')`. -/
def pyRstripStar (s : String) : String :=
  String.mk ((s.data.reverse.dropWhile (fun c => c = '*')).reverse)

/-- Numeric value of a digit string (helper; callers check digits first). -/
def natOfDigits (s : String) : Nat :=
  s.data.foldl (fun a c => a * 10 + (c.toNat - 48)) 0

/-- Model of the `strptime` field regexes for 1-2 digit bounded fields
(`%d`, `%m`, `%H`, `%M`, `%S`): one or two digits, value within bounds. -/
def parseField2 (tok : String) (lo hi : Nat) : Option Nat :=
  if tok.length ≥ 1 ∧ tok.length ≤ 2 ∧ tok.data.all Char.isDigit
      ∧ lo ≤ natOfDigits tok ∧ natOfDigits tok ≤ hi then
    some (natOfDigits tok)
  else none

/-- Model of the `strptime` `%Y` regex (exactly four digits) together with the
`datetime` constructor's `MINYEAR` check. -/
def parseYear4 (tok : String) : Option Nat :=
  if tok.length = 4 ∧ tok.data.all Char.isDigit ∧ 1 ≤ natOfDigits tok then
    some (natOfDigits tok)
  else none

/-- Gregorian leap-year rule (as used by Python `datetime`). -/
def isLeapYear (y : Nat) : Bool :=
  y % 4 == 0 && (y % 100 != 0 || y % 400 == 0)

/-- Days in a month, Gregorian calendar (as validated by Python `datetime`). -/
def daysInMonth (m y : Nat) : Nat :=
  match m with
  | 1 => 31 | 2 => if isLeapYear y then 29 else 28 | 3 => 31 | 4 => 30
  | 5 => 31 | 6 => 30 | 7 => 31 | 8 => 31 | 9 => 30 | 10 => 31
  | 11 => 30 | 12 => 31 | _ => 0

/-- Model of `datetime.strptime(s, "%d.%m.%Y")`: day, month, 4-digit year,
with the day-of-month validity check done by the `datetime` constructor. -/
def parseDMY (s : String) : Option (Nat × Nat × Nat) :=
  match splitOnChar '.' s with
  | [ds, ms, ys] =>
    match parseField2 ds 1 31, parseField2 ms 1 12, parseYear4 ys with
    | some d, some m, some y =>
      if d ≤ daysInMonth m y then some (d, m, y) else none
    | _, _, _ => none
  | _ => none

/-- Model of the `%H:%M:%S` part of `strptime`. -/
def parseHMS (s : String) : Option (Nat × Nat × Nat) :=
  match splitOnChar ':' s with
  | [hs, ms, ss] =>
    match parseField2 hs 0 23, parseField2 ms 0 59, parseField2 ss 0 59 with
    | some h, some m, some sec => some (h, m, sec)
    | _, _, _ => none
  | _ => none

/-- Model of the `%H:%M` part of `strptime`. -/
def parseHM (s : String) : Option (Nat × Nat) :=
  match splitOnChar ':' s with
  | [hs, ms] =>
    match parseField2 hs 0 23, parseField2 ms 0 59 with
    | some h, some m => some (h, m)
    | _, _ => none
  | _ => none

/-- Zero-padding to two digits, as in `strftime` `%d` / `%m`. -/
def pad2 (n : Nat) : String :=
  if n < 10 then "0" ++ toString n else toString n

/-- Model of `strftime("%d.%m.%Y")`. -/
def formatDMY (d m y : Nat) : String :=
  pad2 d ++ "." ++ pad2 m ++ "." ++ toString y

/-- Monotone encoding of a date-time tuple, for comparing parsed date-times
(the order agrees with Python `datetime` comparison on the bounded fields). -/
def encodeDT (y m d h mi : Nat) : Nat :=
  ((((y * 13 + m) * 32 + d) * 24 + h) * 60 + mi)

/-! ### Name reconciliation (`src/data/processing.py`, `src/pdf/generator.py`) -/

/-- Python `dict` as an insertion-ordered association list: assignment to an
existing key updates it in place, a new key is appended. -/
def dictInsert (d : List (String × String)) (k v : String) : List (String × String) :=
  match d with
  | [] => [(k, v)]
  | (k', v') :: rest =>
    if k' = k then (k, v) :: rest else (k', v') :: dictInsert rest k v

/-- Python `dict` lookup on the association-list model. -/
def dictFind (d : List (String × String)) (k : String) : Option String :=
  (d.find? (fun kv => kv.1 = k)).map (fun kv => kv.2)

/-- Embeds the `normalize` helper of `PDFGenerator._lookup_birthday`:
`" ".join(name.strip().split()).lower()`. -/
def normalizeName (s : String) : String :=
  pyLower (strJoin " " (pySplitWs (pyStrip s)))

/-- Roster row as consumed by `DataProcessor.build_birthday_lookup`:
`Nachname`, `Vorname`, `Geburtsdatum` (`none` models a pandas `NaN`; a
`Timestamp` cell is modelled by its rendered date string). -/
structure RosterRow where
  nachname : String
  vorname : String
  geburtsdatum : Option String

/-- Model of `pandas.to_datetime` on the dotted `DD.MM.YYYY` strings this
roster uses (external-library boundary). -/
def pdParseDate (s : String) : Option (Nat × Nat × Nat) :=
  parseDMY s

/-- Embeds `DataProcessor.build_birthday_lookup`: for each row with a parseable
birthday, stores the key `"lastname, firstname"` and additionally the key
`"lastname, first-token-of-firstname"`, both mapped to the formatted date. -/
def build_birthday_lookup (rows : List RosterRow) : List (String × String) :=
  rows.foldl
    (fun d row =>
      let lastname := pyStrip row.nachname
      let firstname := pyStrip row.vorname
      match row.geburtsdatum with
      | none => d
      | some s =>
        match pdParseDate s with
        | none => d
        | some (dd, mm, yy) =>
          let birthday := formatDMY dd mm yy
          let d1 := dictInsert d (lastname ++ ", " ++ firstname) birthday
          match pySplitWs firstname with
          | first :: _ => dictInsert d1 (lastname ++ ", " ++ first) birthday
          | [] => d1)
    []

/-- Scraped player record (`_parse_game_details` builds these;
`is_masked` is derived there from a `*` in the lastname). -/
structure Player where
  nachname : String
  vorname : String
  isMasked : Bool
deriving DecidableEq

/-- Embeds the player construction of `BasketballClient._parse_game_details`:
`is_masked: "*" in lastname`. -/
def mkScrapedPlayer (lastname firstname : String) : Player :=
  ⟨lastname, firstname, strIn "*" lastname⟩

/-- Embeds the normalized-key dictionary comprehension of `_lookup_birthday`:
`{normalize(key): value for key, value in birthday_lookup.items()}`. -/
def normalizedLookup (lookup : List (String × String)) : List (String × String) :=
  lookup.foldl (fun d kv => dictInsert d (normalizeName kv.1) kv.2) []

/-- Embeds step 3 of `_lookup_birthday`: scan the normalized lookup in order
for a key `"lastname,..."` whose firstname part contains every token of the
player's firstname as a substring. -/
def compositeMatch (nl : List (String × String)) (lastname full : String) : Option String :=
  nl.findSome? (fun kv =>
    if strStartsWith kv.1 (lastname ++ ",") then
      match splitOnChar ',' kv.1 with
      | _ :: restParts =>
        if restParts = [] then none
        else
          let keyFirstname := pyStrip (strJoin "," restParts)
          if (pySplitWs full).all (fun part => strIn part keyFirstname) then
            some kv.2
          else none
      | [] => none
    else none)

/-- Embeds `PDFGenerator._lookup_birthday`: exact normalized key, then
lastname + first firstname-token, then the composite-substring scan;
`("", false)` when nothing matches. -/
def lookup_birthday (p : Player) (lookup : List (String × String)) : String × Bool :=
  let lastname := normalizeName p.nachname
  let full := normalizeName p.vorname
  let nl := normalizedLookup lookup
  match dictFind nl (lastname ++ ", " ++ full) with
  | some b => (b, true)
  | none =>
    let step2 : Option String :=
      if full ≠ "" then
        match pySplitWs full with
        | first :: _ => dictFind nl (lastname ++ ", " ++ first)
        | [] => none
      else none
    match step2 with
    | some b => (b, true)
    | none =>
      match compositeMatch nl lastname full with
      | some b => (b, true)
      | none => ("", false)

/-- Embeds the per-player branch of `PDFGenerator.generate_pdf` (rows 2-6):
a masked player gets the fixed placeholder name, an empty birthday and no
lookup; otherwise the name is `"Nachname, Vorname"` and the birthday comes
from `_lookup_birthday`. The third component records whether a lookup was
attempted. -/
def processPlayerRow (p : Player) (lookup : List (String × String)) :
    String × String × Bool :=
  if p.isMasked then ("Geblocked durch DSGVO", "", false)
  else ((p.nachname ++ ", " ++ p.vorname), (lookup_birthday p lookup).1, true)

/-! ### Retry wrapper (`app.py`, `retry_with_backoff`) -/

/-- `RETRY_DELAY = 1` (seconds) from `app.py`. -/
def RETRY_DELAY : Nat := 1

/-- `DEFAULT_RETRY_COUNT = 3` from `app.py`. -/
def DEFAULT_RETRY_COUNT : Nat := 3

/-- Observable outcome of a `retry_with_backoff` run: the returned value or
final error (`none` models falling through a zero-iteration loop), the sleep
durations in order, and the number of calls made to the wrapped function. -/
structure RetryOutcome (α : Type) where
  result : Option (Except Unit α)
  sleeps : List Nat
  calls : Nat

/-- Recursion over the remaining loop iterations of `retry_with_backoff`:
`for attempt in range(max_retries): try return func() except: if attempt ==
max_retries - 1: raise; sleep((2 ** attempt) * RETRY_DELAY)`. -/
def retryAux (f : Nat → Except Unit α) (maxRetries : Nat) :
    Nat → Nat → RetryOutcome α
  | 0, _ => ⟨none, [], 0⟩
  | remaining + 1, attempt =>
    match f attempt with
    | .ok a => ⟨some (.ok a), [], 1⟩
    | .error e =>
      if attempt = maxRetries - 1 then ⟨some (.error e), [], 1⟩
      else
        let rest := retryAux f maxRetries remaining (attempt + 1)
        ⟨rest.result, ((2 ^ attempt) * RETRY_DELAY) :: rest.sleeps, rest.calls + 1⟩

/-- Embeds `retry_with_backoff(func, max_retries=...)` from `app.py`. -/
def retry_with_backoff (f : Nat → Except Unit α) (maxRetries : Nat) : RetryOutcome α :=
  retryAux f maxRetries maxRetries 0

/-! ### Date normalization (`app.py`, `parse_date_only`) -/

/-- Input domain of `parse_date_only`: a pandas `Timestamp` / `datetime`
(carried date part), a string, or a missing value (`NaN` / `None`). -/
inductive PyDateVal where
  | ts (d m y : Nat)
  | str (s : String)
  | nan
deriving DecidableEq

/-- String branch of `parse_date_only`: first
`strptime(raw.strip(), "%d.%m.%Y %H:%M:%S")`, then
`strptime(raw.strip().split()[0], "%d.%m.%Y")`; `none` models the caught
`ValueError` / `IndexError`. -/
def parseDateStr (raw : String) : Option (Nat × Nat × Nat) :=
  let toks := pySplitWs (pyStrip raw)
  let branch1 : Option (Nat × Nat × Nat) :=
    match toks with
    | [a, b] =>
      match parseDMY a, parseHMS b with
      | some dmy, some _ => some dmy
      | _, _ => none
    | _ => none
  match branch1 with
  | some dmy => some dmy
  | none =>
    match toks with
    | [] => none
    | p :: _ => parseDMY p

/-- Embeds `parse_date_only` from `app.py`: missing value or unparseable
string gives the fixed string `"Unknown"`, otherwise the date is rendered
with `strftime("%d.%m.%Y")`. -/
def parse_date_only : PyDateVal → String
  | .nan => "Unknown"
  | .ts d m y => formatDMY d m y
  | .str raw =>
    match parseDateStr raw with
    | some (d, m, y) => formatDMY d m y
    | none => "Unknown"

/-! ### PDF player selection (`app.py`, `generate_pdf`) -/

/-- Player dictionary as used by `app.py`'s `generate_pdf`. -/
structure PRec where
  nachname : String
  vorname : String
deriving DecidableEq

/-- Model of `birthday_lookup.get((ln, fn), "Unknown")` over the
`(lastname, firstname) -> birthday` dictionary built in `app.py`. -/
def appLookupGet (lookup : List ((String × String) × String)) (k : String × String) :
    String :=
  match lookup.find? (fun kv => kv.1 = k) with
  | some kv => kv.2
  | none => "Unknown"

/-- Birthday-known test of `generate_pdf`: the looked-up value differs from
`"Unknown"`. -/
def hasBday (lookup : List ((String × String) × String)) (p : PRec) : Bool :=
  appLookupGet lookup (p.nachname, p.vorname) ≠ "Unknown"

/-- Embeds the player selection of `app.py`'s `generate_pdf`: partition into
players with and without a known birthday (preserving order), take the first
five with a birthday, then fill remaining slots from those without. -/
def selectPdfPlayers (players : List PRec)
    (lookup : List ((String × String) × String)) : List PRec :=
  let withBday := players.filter (hasBday lookup)
  let noBday := players.filter (fun p => !(hasBday lookup p))
  let finalPlayers := withBday.take 5
  if finalPlayers.length < 5 then
    finalPlayers ++ noBday.take (5 - finalPlayers.length)
  else finalPlayers

/-! ### Excel export games (`src/api/archive.py`, `get_away_games`) -/

/-- Unified game record shape produced by both schedule strategies
(`spieltag`, `nummer`, `datum`, `home_team`, `away_team`, `score`). -/
structure Game where
  spieltag : String
  nummer : String
  datum : String
  home_team : String
  away_team : String
  score : String
deriving DecidableEq

/-- Row of the 6-column Excel export after `str()` rendering;
`none` models a pandas `NaN` for the `pd.isna`-checked columns. -/
structure ExportRow where
  spieltag : Option String
  spielnummer : Option String
  datum : String
  heim : String
  gast : String
  endstand : Option String

/-- Model of Python `int(float(s))` for the non-negative spreadsheet numerals
handled here (digits with an optional fractional part, surrounding
whitespace); `none` models the raised `ValueError` for anything else. -/
def pyFloatToInt (s : String) : Option Nat :=
  let t := pyStrip s
  match splitOnChar '.' t with
  | [a] =>
    if a ≠ "" ∧ a.data.all Char.isDigit then some (natOfDigits a) else none
  | [a, b] =>
    if (a ≠ "" ∨ b ≠ "") ∧ a.data.all Char.isDigit ∧ b.data.all Char.isDigit then
      some (natOfDigits a)
    else none
  | _ => none

/-- Embeds `str(int(float(str(x).split('*')[0])))`: strip the marker, coerce
float to int, render. -/
def pyNumCoerce (x : String) : Option Nat :=
  pyFloatToInt ((splitOnChar '*' x).headD "")

/-- Model of `strptime(s, "%d.%m.%Y %H:%M")` (the sort key of
`get_away_games`). -/
def parseDMYHM (s : String) : Option (Nat × Nat × Nat × Nat × Nat) :=
  if s = pyStrip s then
    match pySplitWs s with
    | [a, b] =>
      match parseDMY a, parseHM b with
      | some (d, m, y), some (h, mi) => some (d, m, y, h, mi)
      | _, _ => none
    | _ => none
  else none

/-- Sort key of `get_away_games` as a natural number (monotone encoding of
the parsed date-time; only applied when every date parsed). -/
def gameKey (g : Game) : Nat :=
  match parseDMYHM g.datum with
  | some (d, m, y, h, mi) => encodeDT y m d h mi
  | none => 0

/-- Embeds the per-row body of the `get_away_games` loop: skip rows with a
missing match-day or match-number or a `*`-marked match-day, strip `*`
markers from team names, keep only away games of `teamName`, coerce the
numeric fields (a coercion failure models the caught per-row exception). -/
def processExportRow (teamName : String) (r : ExportRow) : Option Game :=
  match r.spieltag, r.spielnummer with
  | some st, some sn =>
    if strEndsWith st "*" then none
    else
      let homeTeam := pyRstripStar (pyStrip r.heim)
      let awayTeam := pyRstripStar (pyStrip r.gast)
      if strIn (pyLower teamName) (pyLower awayTeam) then
        let dateStr := pyStrip r.datum
        let score := match r.endstand with
          | some e => pyStrip e
          | none => ""
        match pyNumCoerce st, pyNumCoerce sn with
        | some stN, some snN =>
          some ⟨toString stN, toString snN, dateStr, homeTeam, awayTeam, score⟩
        | _, _ => none
      else none
  | _, _ => none

/-- Embeds `BasketballArchive.get_away_games` (Excel export strategy): filter
and convert the rows, then sort ascending by the parsed date-time; a date
that fails to parse raises inside `games.sort`, which the outer handler
turns into an empty result. -/
def get_away_games (teamName : String) (rows : List ExportRow) : List Game :=
  let games := rows.filterMap (processExportRow teamName)
  if games.all (fun g => (parseDMYHM g.datum).isSome) then
    games.mergeSort (fun a b => gameKey a ≤ gameKey b)
  else []

/-! ### Pagination link scanning (`src/api/archive.py`) -/

/-- Pagination link as parsed from a `sportViewNavigationLink` anchor:
`some n` when the href carries `startrow=n`, `none` otherwise. -/
abbrev NavLink := Option Nat

/-- Embeds the pagination scan shared by `_get_leagues_page` and
`_get_schedule_page`: the first linked `startrow` strictly greater than the
current one, else `none`. -/
def nextStartrow : List NavLink → Nat → Option Nat
  | [], _ => none
  | none :: rest, cur => nextStartrow rest cur
  | some n :: rest, cur => if cur < n then some n else nextStartrow rest cur

/-! ### HTML schedule page (`src/api/archive.py`, `_get_schedule_page`) -/

/-- Schedule-table cell: its stripped-relevant text and whether it contains a
`<strike>` tag. -/
structure SCell where
  text : String
  struck : Bool
deriving DecidableEq

/-- Schedule-table row: its `sportItemEven` / `sportItemOdd` cells. -/
structure SRow where
  cells : List SCell
deriving DecidableEq

/-- `sportView` table of a schedule page; `hasDatumMarker` records whether it
contains a `td` whose text mentions `Datum` (the main-table test). -/
structure STable where
  hasDatumMarker : Bool
  rows : List SRow
deriving DecidableEq

/-- Parsed schedule page: its `sportView` tables and the `startrow` values of
its pagination links. -/
structure SchedulePageDoc where
  tables : List STable
  navStartrows : List NavLink
deriving DecidableEq

/-- Embeds the row loop of `_get_schedule_page`, with its page-local
`seen_game_numbers` set: rows need at least 6 cells, a struck-through first
cell skips the row, an already-seen game number skips the row, and only away
games of `teamName` are kept (and only those mark their number as seen). -/
def schedLoop (teamName : String) : List SRow → List String → List Game
  | [], _ => []
  | r :: rest, seen =>
    match r.cells with
    | c0 :: c1 :: c2 :: c3 :: c4 :: c5 :: _ =>
      if c0.struck then schedLoop teamName rest seen
      else
        let gameNumber := pyStrip c1.text
        if gameNumber ∈ seen then schedLoop teamName rest seen
        else
          let homeTeam := pyStrip c3.text
          let awayTeam := pyStrip c4.text
          if strIn (pyLower teamName) (pyLower awayTeam) then
            ⟨pyStrip c0.text, gameNumber, pyStrip c2.text, homeTeam, awayTeam,
              pyStrip c5.text⟩ :: schedLoop teamName rest (gameNumber :: seen)
          else schedLoop teamName rest seen
    | _ => schedLoop teamName rest seen

/-- Embeds `BasketballArchive._get_schedule_page`: find the game table, walk
its rows with a fresh seen-set, then scan pagination for the next offset. -/
def get_schedule_page (teamName : String) (doc : SchedulePageDoc) (startRow : Nat) :
    List Game × Option Nat :=
  match doc.tables.find? (fun t => t.hasDatumMarker) with
  | none => ([], none)
  | some t => (schedLoop teamName t.rows [], nextStartrow doc.navStartrows startRow)

/-- Modelled from the spec: the repository contains no driver that loops
`_get_schedule_page` over pages (only the single-page function exists); the
spec's HTML schedule walk accumulates each page's games and follows the
returned next offset until none remains, here bounded by fuel. -/
def getScheduleWalk (server : Nat → SchedulePageDoc) (teamName : String) :
    Nat → Nat → List Game
  | 0, _ => []
  | fuel + 1, startRow =>
    let step := get_schedule_page teamName (server startRow) startRow
    match step.2 with
    | none => step.1
    | some n => step.1 ++ getScheduleWalk server teamName fuel n

/-! ### League listing pagination (`src/api/archive.py`, `_get_all_leagues`) -/

/-- Anchor inside the action cell of a league row: which `Action` codes its
href carries, the captured `liga_id` (when the regex matches), and the raw
href. -/
structure LHref where
  action107 : Bool
  action108 : Bool
  ligaId : Option String
  href : String
deriving DecidableEq

/-- League-table cell: text plus contained anchors. -/
structure LCell where
  text : String
  links : List LHref
deriving DecidableEq

/-- `sportView` table of the league listing; `hasSpielklMarker` records
whether it contains a `td` mentioning `Spielkl.` (the main-table test);
`itemRows` are the rows' `sportItemEven` / `sportItemOdd` cells. -/
structure LTable where
  hasSpielklMarker : Bool
  itemRows : List (List LCell)
deriving DecidableEq

/-- Parsed league listing page. -/
structure LeaguesPageDoc where
  tables : List LTable
  navStartrows : List NavLink
deriving DecidableEq

/-- League record extracted by `_get_leagues_page`. -/
structure League where
  liga_id : String
  season_id : String
  spielklasse : String
  altersklasse : String
  bereich : String
  bezirk : String
  kreis : String
  name : String
  table_link : Option String
  schedule_link : Option String
deriving DecidableEq

/-- `BASE_URL` of `BasketballArchive`. -/
def BASE_URL : String := "https://www.basketball-bund.net"

/-- Embeds the link loop over the action cell: an `Action=107` link with a
captured `liga_id` sets the id and table link, an `Action=108` link sets the
schedule link; later links overwrite earlier ones. -/
def scanActionLinks (links : List LHref) :
    Option String × Option String × Option String :=
  links.foldl
    (fun acc l =>
      if l.action107 then
        match l.ligaId with
        | some i => (some i, some l.href, acc.2.2)
        | none => acc
      else if l.action108 then (acc.1, acc.2.1, some l.href)
      else acc)
    (none, none, none)

/-- Embeds one league row of `_get_leagues_page`: at least 7 cells, an id
found in the action cell, positional text fields, absolute links. -/
def leagueOfRow (seasonId : String) (cells : List LCell) : Option League :=
  match cells with
  | c0 :: c1 :: c2 :: c3 :: c4 :: c5 :: c6 :: _ =>
    match scanActionLinks c6.links with
    | (some i, tl, sl) =>
      some ⟨i, seasonId, pyStrip c0.text, pyStrip c1.text, pyStrip c2.text,
        pyStrip c3.text, pyStrip c4.text, pyStrip c5.text,
        tl.map (fun h => BASE_URL ++ "/" ++ h),
        sl.map (fun h => BASE_URL ++ "/" ++ h)⟩
    | (none, _, _) => none
  | _ => none

/-- Embeds `BasketballArchive._get_leagues_page`: find the main table, decode
its rows, then scan pagination for the first offset beyond the current one. -/
def get_leagues_page (seasonId : String) (doc : LeaguesPageDoc) (startRow : Nat) :
    List League × Option Nat :=
  match doc.tables.find? (fun t => t.hasSpielklMarker) with
  | none => ([], none)
  | some t =>
    (t.itemRows.filterMap (leagueOfRow seasonId), nextStartrow doc.navStartrows startRow)

/-- Embeds `BasketballArchive._get_all_leagues`: `while True` loop following
the returned next offset, bounded here by fuel; `none` models a loop that has
not terminated within the given number of pages (the source has no page cap). -/
def getAllLeaguesAux (server : Nat → LeaguesPageDoc) (seasonId : String) :
    Nat → Nat → List League → Option (List League)
  | 0, _, _ => none
  | fuel + 1, startRow, acc =>
    let step := get_leagues_page seasonId (server startRow) startRow
    match step.2 with
    | none => some (acc ++ step.1)
    | some n => getAllLeaguesAux server seasonId fuel n (acc ++ step.1)

/-- The walk of `_get_all_leagues` started at `startrow = 0`. -/
def get_all_leagues (server : Nat → LeaguesPageDoc) (seasonId : String)
    (fuel : Nat) : Option (List League) :=
  getAllLeaguesAux server seasonId fuel 0 []

/-- Sequence of `startrow` offsets requested by the league walk (first element
is the initial offset 0 when started there). -/
def leagueOffsetTrace (server : Nat → LeaguesPageDoc) (seasonId : String) :
    Nat → Nat → List Nat
  | 0, startRow => [startRow]
  | fuel + 1, startRow =>
    match (get_leagues_page seasonId (server startRow) startRow).2 with
    | none => [startRow]
    | some n => startRow :: leagueOffsetTrace server seasonId fuel n

/-! ### League standings teams (`src/api/archive.py`, `_get_league_teams`) -/

/-- Standings-table cell: text and whether it contains a `<strike>` tag. -/
structure TCell where
  text : String
  struck : Bool
deriving DecidableEq

/-- Standings-table row (its `sportItemEven` / `sportItemOdd` cells). -/
structure TRow where
  cells : List TCell
deriving DecidableEq

/-- `sportView` table of the standings page; `hasRangHeader` records whether
it has a `sportViewHeader` cell mentioning `Rang` (the main-table test). -/
structure TTable where
  hasRangHeader : Bool
  rows : List TRow
deriving DecidableEq

/-- Parsed standings page. -/
structure TeamsDoc where
  tables : List TTable
deriving DecidableEq

/-- Team record extracted by `_get_league_teams`. -/
structure Team where
  rank : String
  name : String
  games : String
  points : String
deriving DecidableEq

/-- Embeds one standings row: at least rank and name cells, and the team is
kept only when the name cell carries no `<strike>` tag; `games` / `points`
come from cells 3 and 4 when present. -/
def teamOfRow (cells : List TCell) : Option Team :=
  match cells with
  | c0 :: c1 :: rest =>
    if c1.struck then none
    else
      some ⟨pyStrip c0.text, pyStrip c1.text,
        (match rest with | _ :: g :: _ => pyStrip g.text | _ => ""),
        (match rest with | _ :: _ :: p :: _ => pyStrip p.text | _ => "")⟩
  | _ => none

/-- Embeds `BasketballArchive._get_league_teams`: find the standings table,
decode its non-struck rows. -/
def get_league_teams (doc : TeamsDoc) : List Team :=
  match doc.tables.find? (fun t => t.hasRangHeader) with
  | none => []
  | some t => t.rows.filterMap (fun r => teamOfRow r.cells)

/-! ### Liga listing table (`src/api/basketball.py`, `_parse_liga_data`) -/

/-- Anchor in the last cell of a liga row: whether the href contains
`Action=102`, and the value of `href.split("liga_id=")[-1]`. -/
structure LigaHref where
  action102 : Bool
  ligaIdParam : String
deriving DecidableEq

/-- Liga-table cell. -/
structure LigaCell where
  text : String
  links : List LigaHref
deriving DecidableEq

/-- Candidate `sportView` table: its `sportViewHeader` cell texts and its
rows (each row's `td` cells). -/
structure LigaTable where
  headerTexts : List String
  rows : List (List LigaCell)
deriving DecidableEq

/-- Parsed liga search response: whether the `ligaliste` form exists, and the
candidate tables. -/
structure LigaDoc where
  hasLigaListe : Bool
  tables : List LigaTable
deriving DecidableEq

/-- The required header tokens of `_parse_liga_data`. -/
def requiredLigaHeaders : List String := ["Klasse", "Alter", "Liganame"]

/-- Header-signature test of `_parse_liga_data`:
`{"Klasse", "Alter", "Liganame"}.issubset(header_texts)`. -/
def ligaHeaderMatch (t : LigaTable) : Bool :=
  requiredLigaHeaders.all (fun h => h ∈ t.headerTexts)

/-- Table selection of `_parse_liga_data`: the first table whose header cells
contain all required tokens. -/
def findLigaTable (tables : List LigaTable) : Option LigaTable :=
  tables.find? ligaHeaderMatch

/-- League record extracted by `_parse_liga_data`. -/
structure LigaRecord where
  klasse : String
  alter : String
  mw : String
  bezirk : String
  kreis : String
  liganame : String
  liganr : String
  liga_id : Option String
deriving DecidableEq

/-- Embeds one liga row: rows with fewer than 8 cells are skipped, the
`Liga_ID` comes from the first `Action=102` link of cell 7. -/
def ligaRowRecord (cells : List LigaCell) : Option LigaRecord :=
  match cells with
  | c0 :: c1 :: c2 :: c3 :: c4 :: c5 :: c6 :: c7 :: _ =>
    some ⟨pyStrip c0.text, pyStrip c1.text, pyStrip c2.text, pyStrip c3.text,
      pyStrip c4.text, pyStrip c5.text, pyStrip c6.text,
      ((c7.links.find? (fun l => l.action102)).map (fun l => l.ligaIdParam))⟩
  | _ => none

/-- Embeds `BasketballClient._parse_liga_data`: no `ligaliste` form or no
matching table gives an empty record list (never an exception); otherwise the
selected table's body rows (skipping the header row) are decoded. -/
def parse_liga_data (doc : LigaDoc) : List LigaRecord :=
  if doc.hasLigaListe then
    match findLigaTable doc.tables with
    | none => []
    | some t => (t.rows.drop 1).filterMap ligaRowRecord
  else []

/-! ### Concrete test fixtures (used by witnesses and counterexamples) -/

/-- Schedule row fixture: an unstruck 6-cell row for game `num` on `datum`
with away team `Gast`. -/
def fixtureSchedRow (num datum : String) : SRow :=
  ⟨[⟨"1", false⟩, ⟨num, false⟩, ⟨datum, false⟩, ⟨"Heim", false⟩,
    ⟨"Gast", false⟩, ⟨"50:40", false⟩]⟩

/-- First schedule page of a two-page walk; game 12 appears here and its
pagination links to offset 10. -/
def fixturePageA : SchedulePageDoc :=
  ⟨[⟨true, [fixtureSchedRow "12" "02.01.2024 10:00",
            fixtureSchedRow "13" "01.01.2024 10:00"]⟩], [some 10]⟩

/-- Second schedule page of the walk; game 12 appears again, no further page. -/
def fixturePageB : SchedulePageDoc :=
  ⟨[⟨true, [fixtureSchedRow "12" "02.01.2024 10:00"]⟩], []⟩

/-- Two-page schedule server: offset 0 serves page A, everything else page B. -/
def fixtureSchedServer : Nat → SchedulePageDoc :=
  fun sr => if sr = 0 then fixturePageA else fixturePageB

/-- Single schedule page whose two games appear in reverse chronological
order in the document. -/
def fixtureSortPage : SchedulePageDoc :=
  ⟨[⟨true, [fixtureSchedRow "20" "02.01.2024 10:00",
            fixtureSchedRow "21" "01.01.2024 10:00"]⟩], []⟩

/-- Export row fixture: away game of `Gast` with a float-with-marker match
number. -/
def fixtureExportRow : ExportRow :=
  ⟨some "1", some "7.0*", "01.01.2024 10:00", "Heim", "Gast", none⟩

/-- League-listing server whose every page links one offset further: the
pathological upstream response that never stops offering a next page. -/
def fixtureLoopServer : Nat → LeaguesPageDoc :=
  fun k => ⟨[⟨true, []⟩], [some (k + 1)]⟩

/-- Liga table whose header has the required tokens scrambled among
decorative cells, with one 8-cell body row after the header row. -/
def fixtureLigaTable : LigaTable :=
  ⟨["Nr", "Liganame", "Alter", "deco", "Klasse"],
   [[], [⟨"KL", []⟩, ⟨"U12", []⟩, ⟨"m", []⟩, ⟨"BZ", []⟩, ⟨"KR", []⟩,
         ⟨"Liga A", []⟩, ⟨"7", []⟩, ⟨"x", [⟨true, "4711"⟩]⟩]]⟩

/-- Liga document: one decoy table without the signature, then the matching
table. -/
def fixtureLigaDoc : LigaDoc :=
  ⟨true, [⟨["Rang", "Name"], []⟩, fixtureLigaTable]⟩

/-! ### Helper lemmas -/

theorem pySplitWs_empty : pySplitWs "" = [] := by decide

theorem nextStartrow_gt :
    ∀ (links : List NavLink) (cur n : Nat), nextStartrow links cur = some n → cur < n := by
  intro links
  induction links with
  | nil => intro cur n h; simp [nextStartrow] at h
  | cons l rest ih =>
    intro cur n h
    match l with
    | none => exact ih cur n h
    | some m =>
      by_cases hc : cur < m
      · simp [nextStartrow, hc] at h
        omega
      · simp [nextStartrow, hc] at h
        exact ih cur n h

theorem get_leagues_page_next_gt (seasonId : String) (doc : LeaguesPageDoc)
    (startRow n : Nat) (h : (get_leagues_page seasonId doc startRow).2 = some n) :
    startRow < n := by
  unfold get_leagues_page at h
  cases hf : doc.tables.find? (fun t => t.hasSpielklMarker) with
  | none => rw [hf] at h; simp at h
  | some t =>
    rw [hf] at h
    exact nextStartrow_gt _ _ _ h

theorem leagueOffsetTrace_head (server : Nat → LeaguesPageDoc) (seasonId : String) :
    ∀ (fuel startRow : Nat),
      (leagueOffsetTrace server seasonId fuel startRow).head? = some startRow := by
  intro fuel startRow
  cases fuel with
  | zero => rfl
  | succ f =>
    unfold leagueOffsetTrace
    cases h : (get_leagues_page seasonId (server startRow) startRow).2 <;> simp

theorem teamOfRow_some (cells : List TCell) (tm : Team) (h : teamOfRow cells = some tm) :
    ∃ c0 c1 rest, cells = c0 :: c1 :: rest ∧ c1.struck = false := by
  match cells with
  | [] => simp [teamOfRow] at h
  | [c0] => simp [teamOfRow] at h
  | c0 :: c1 :: rest =>
    refine ⟨c0, c1, rest, rfl, ?_⟩
    by_cases hs : c1.struck
    · simp [teamOfRow, hs] at h
    · simpa using hs

theorem processExportRow_some (teamName : String) (r : ExportRow) (g : Game)
    (h : processExportRow teamName r = some g) :
    ∃ st sn, r.spieltag = some st ∧ strEndsWith st "*" = false ∧
      r.spielnummer = some sn ∧
      g.home_team = pyRstripStar (pyStrip r.heim) ∧
      g.away_team = pyRstripStar (pyStrip r.gast) ∧
      strIn (pyLower teamName) (pyLower (pyRstripStar (pyStrip r.gast))) = true := by
  unfold processExportRow at h
  cases hst : r.spieltag with
  | none => rw [hst] at h; simp at h
  | some st =>
    cases hsn : r.spielnummer with
    | none => rw [hst, hsn] at h; simp at h
    | some sn =>
      rw [hst, hsn] at h
      by_cases hend : strEndsWith st "*"
      · simp [hend] at h
      · simp only [hend, if_false, Bool.false_eq_true, reduceIte] at h
        by_cases haway : strIn (pyLower teamName) (pyLower (pyRstripStar (pyStrip r.gast)))
        · refine ⟨st, sn, rfl, by simpa using hend, rfl, ?_, ?_, haway⟩ <;>
          · cases hc1 : pyNumCoerce st <;> cases hc2 : pyNumCoerce sn <;>
              simp only [haway, hc1, hc2, if_true, reduceIte, Option.some.injEq,
                reduceCtorEq] at h <;> simp [← h]
        · simp [haway] at h

theorem schedLoop_mem (teamName : String) :
    ∀ (rows : List SRow) (seen : List String) (g : Game),
      g ∈ schedLoop teamName rows seen →
      ∃ r ∈ rows, ∃ c0 c1 c2 c3 c4 c5 rest,
        r.cells = c0 :: c1 :: c2 :: c3 :: c4 :: c5 :: rest ∧
        c0.struck = false ∧
        strIn (pyLower teamName) (pyLower (pyStrip c4.text)) = true ∧
        g = ⟨pyStrip c0.text, pyStrip c1.text, pyStrip c2.text, pyStrip c3.text,
              pyStrip c4.text, pyStrip c5.text⟩ := by
  intro rows
  induction rows with
  | nil => intro seen g h; simp [schedLoop] at h
  | cons r rest ih =>
    intro seen g h
    match hc : r.cells with
    | [] | [_] | [_, _] | [_, _, _] | [_, _, _, _] | [_, _, _, _, _] =>
      rw [schedLoop, hc] at h
      obtain ⟨r', hr', rest'⟩ := ih seen g h
      exact ⟨r', List.mem_cons_of_mem _ hr', rest'⟩
    | c0 :: c1 :: c2 :: c3 :: c4 :: c5 :: cs =>
      rw [schedLoop, hc] at h
      by_cases hs : c0.struck
      · simp only [hs, if_true] at h
        obtain ⟨r', hr', rest'⟩ := ih seen g h
        exact ⟨r', List.mem_cons_of_mem _ hr', rest'⟩
      · simp only [hs, if_false, Bool.false_eq_true, reduceIte] at h
        by_cases hseen : pyStrip c1.text ∈ seen
        · simp only [hseen, if_true, reduceIte] at h
          obtain ⟨r', hr', rest'⟩ := ih seen g h
          exact ⟨r', List.mem_cons_of_mem _ hr', rest'⟩
        · simp only [hseen, if_false, reduceIte] at h
          by_cases hteam : strIn (pyLower teamName) (pyLower (pyStrip c4.text))
          · simp only [hteam, if_true, reduceIte, List.mem_cons] at h
            cases h with
            | inl hg =>
              exact ⟨r, List.mem_cons_self r rest, c0, c1, c2, c3, c4, c5, cs, hc,
                by simpa using hs, hteam, hg⟩
            | inr hg =>
              obtain ⟨r', hr', rest'⟩ := ih _ g hg
              exact ⟨r', List.mem_cons_of_mem _ hr', rest'⟩
          · simp only [hteam, if_false, Bool.false_eq_true, reduceIte] at h
            obtain ⟨r', hr', rest'⟩ := ih seen g h
            exact ⟨r', List.mem_cons_of_mem _ hr', rest'⟩

theorem schedLoop_numbers_nodup (teamName : String) :
    ∀ (rows : List SRow) (seen : List String),
      ((schedLoop teamName rows seen).map (fun g => g.nummer)).Nodup ∧
      ∀ g ∈ schedLoop teamName rows seen, g.nummer ∉ seen := by
  intro rows
  induction rows with
  | nil => intro seen; simp [schedLoop]
  | cons r rest ih =>
    intro seen
    match hc : r.cells with
    | [] | [_] | [_, _] | [_, _, _] | [_, _, _, _] | [_, _, _, _, _] =>
      rw [schedLoop, hc]; exact ih seen
    | c0 :: c1 :: c2 :: c3 :: c4 :: c5 :: cs =>
      rw [schedLoop, hc]
      by_cases hs : c0.struck
      · simp only [hs, if_true]; exact ih seen
      · simp only [hs, if_false, Bool.false_eq_true, reduceIte]
        by_cases hseen : pyStrip c1.text ∈ seen
        · simp only [hseen, if_true, reduceIte]; exact ih seen
        · simp only [hseen, if_false, reduceIte]
          by_cases hteam : strIn (pyLower teamName) (pyLower (pyStrip c4.text))
          · simp only [hteam, if_true, reduceIte]
            obtain ⟨ihn, ihs⟩ := ih (pyStrip c1.text :: seen)
            constructor
            · simp only [List.map_cons, List.nodup_cons]
              refine ⟨?_, ihn⟩
              intro hmem
              obtain ⟨g', hg', hgn⟩ := List.mem_map.mp hmem
              exact (ihs g' hg') (by rw [hgn]; exact List.mem_cons_self _ _)
            · intro g hg
              rcases List.mem_cons.mp hg with hg | hg
              · rw [hg]; exact hseen
              · intro hmem
                exact (ihs g hg) (List.mem_cons_of_mem _ hmem)
          · simp only [hteam, if_false, Bool.false_eq_true, reduceIte]
            exact ih seen

/-! ### Claim theorems -/

/-- C1: birthday reconciliation tries the match strategies in strict priority
order with first match winning — (1) exact match on the normalized
`lastname, full firstname` key, (2) match on `lastname, first firstname
token`, (3) first lookup entry with the player's lastname whose firstname
contains every token of the player's firstname; for the roster row
`("Müller", "Anna Maria", "01.01.2000")` the player `("Müller", "Anna")`
resolves on the first-token key and `("Müller", "Maria Anna")` resolves via
the composite rule, both to `"01.01.2000"`; a player whose lastname carries
the `*` redaction marker is marked masked, gets the fixed placeholder name,
and no lookup is attempted. -/
theorem c1_birthday_reconciliation :
    (∀ (p : Player) (L : List (String × String)) (b : String),
        dictFind (normalizedLookup L)
            (normalizeName p.nachname ++ ", " ++ normalizeName p.vorname) = some b →
        lookup_birthday p L = (b, true)) ∧
    (∀ (p : Player) (L : List (String × String)) (b first : String)
        (rest : List String),
        dictFind (normalizedLookup L)
            (normalizeName p.nachname ++ ", " ++ normalizeName p.vorname) = none →
        pySplitWs (normalizeName p.vorname) = first :: rest →
        dictFind (normalizedLookup L) (normalizeName p.nachname ++ ", " ++ first) =
          some b →
        lookup_birthday p L = (b, true)) ∧
    (∀ (p : Player) (L : List (String × String)) (b : String),
        dictFind (normalizedLookup L)
            (normalizeName p.nachname ++ ", " ++ normalizeName p.vorname) = none →
        (∀ (first : String) (rest : List String),
            pySplitWs (normalizeName p.vorname) = first :: rest →
            dictFind (normalizedLookup L)
                (normalizeName p.nachname ++ ", " ++ first) = none) →
        compositeMatch (normalizedLookup L) (normalizeName p.nachname)
            (normalizeName p.vorname) = some b →
        lookup_birthday p L = (b, true)) ∧
    (lookup_birthday ⟨"Müller", "Anna", false⟩
        (build_birthday_lookup [⟨"Müller", "Anna Maria", some "01.01.2000"⟩]) =
      ("01.01.2000", true) ∧
     dictFind (normalizedLookup
        (build_birthday_lookup [⟨"Müller", "Anna Maria", some "01.01.2000"⟩]))
        "müller, anna" = some "01.01.2000" ∧
     lookup_birthday ⟨"Müller", "Maria Anna", false⟩
        (build_birthday_lookup [⟨"Müller", "Anna Maria", some "01.01.2000"⟩]) =
      ("01.01.2000", true) ∧
     dictFind (normalizedLookup
        (build_birthday_lookup [⟨"Müller", "Anna Maria", some "01.01.2000"⟩]))
        "müller, maria anna" = none ∧
     dictFind (normalizedLookup
        (build_birthday_lookup [⟨"Müller", "Anna Maria", some "01.01.2000"⟩]))
        "müller, maria" = none) ∧
    (∀ (ln fn : String) (L : List (String × String)), strIn "*" ln = true →
        (mkScrapedPlayer ln fn).isMasked = true ∧
        processPlayerRow (mkScrapedPlayer ln fn) L =
          ("Geblocked durch DSGVO", "", false)) := by
  refine ⟨?_, ?_, ?_, by decide, ?_⟩
  · intro p L b h
    simp [lookup_birthday, h]
  · intro p L b first rest h1 hsplit hfind
    have hne : normalizeName p.vorname ≠ "" := by
      intro he
      rw [he, pySplitWs_empty] at hsplit
      exact List.noConfusion hsplit
    simp [lookup_birthday, h1, hsplit, hfind, hne]
  · intro p L b h1 h2 h3
    cases hsp : pySplitWs (normalizeName p.vorname) with
    | nil =>
      simp [lookup_birthday, h1, hsp, h3]
    | cons f r =>
      have hne : normalizeName p.vorname ≠ "" := by
        intro he
        rw [he, pySplitWs_empty] at hsp
        exact List.noConfusion hsp
      have hf := h2 f r hsp
      simp [lookup_birthday, h1, hsp, hf, hne, h3]
  · intro ln fn L h
    refine ⟨by simp [mkScrapedPlayer, h], ?_⟩
    simp [processPlayerRow, mkScrapedPlayer, h]

/-- C1 witness: the priority rules applied at the concrete roster/player pair
of the claim. -/
theorem c1_birthday_reconciliation_witness :
    lookup_birthday ⟨"Müller", "Anna Maria", false⟩
        (build_birthday_lookup [⟨"Müller", "Anna Maria", some "01.01.2000"⟩]) =
      ("01.01.2000", true) :=
  c1_birthday_reconciliation.1 ⟨"Müller", "Anna Maria", false⟩
    (build_birthday_lookup [⟨"Müller", "Anna Maria", some "01.01.2000"⟩])
    "01.01.2000" (by decide)

/-- C3 counterexample: with every attempt failing and `max_retries = 3`, the
wrapper sleeps 1s and 2s only — not the claimed 1s, 2s and 4s. -/
theorem c3_backoff_counterexample :
    (retry_with_backoff (fun _ => (Except.error () : Except Unit Nat)) 3).sleeps =
      [1, 2] ∧
    (retry_with_backoff (fun _ => (Except.error () : Except Unit Nat)) 3).sleeps ≠
      [1, 2, 4] := by
  exact ⟨by decide, by decide⟩

/-- C3 (amended): with `max_retries = 3` and base delay 1s, three consecutive
failures sleep 1s then 2s and surface the final error after exactly three
calls (never a fourth); a success on attempt k returns that result
immediately after k prior backoff sleeps. -/
theorem c3_retry_backoff :
    (∀ (f : Nat → Except Unit Nat), (∀ n, f n = .error ()) →
        retry_with_backoff f 3 = ⟨some (.error ()), [1, 2], 3⟩) ∧
    (∀ (f : Nat → Except Unit Nat) (a : Nat), f 0 = .ok a →
        retry_with_backoff f 3 = ⟨some (.ok a), [], 1⟩) ∧
    (∀ (f : Nat → Except Unit Nat) (a : Nat), f 0 = .error () → f 1 = .ok a →
        retry_with_backoff f 3 = ⟨some (.ok a), [1], 2⟩) ∧
    (∀ (f : Nat → Except Unit Nat) (a : Nat),
        f 0 = .error () → f 1 = .error () → f 2 = .ok a →
        retry_with_backoff f 3 = ⟨some (.ok a), [1, 2], 3⟩) := by
  refine ⟨?_, ?_, ?_, ?_⟩
  · intro f hf
    simp [retry_with_backoff, retryAux, hf, RETRY_DELAY]
  · intro f a h0
    simp [retry_with_backoff, retryAux, h0]
  · intro f a h0 h1
    simp [retry_with_backoff, retryAux, h0, h1, RETRY_DELAY]
  · intro f a h0 h1 h2
    simp [retry_with_backoff, retryAux, h0, h1, h2, RETRY_DELAY]

/-- C3 witness: the all-failures case at the constant failing function. -/
theorem c3_retry_backoff_witness :
    retry_with_backoff (fun _ => (Except.error () : Except Unit Nat)) 3 =
      ⟨some (.error ()), [1, 2], 3⟩ :=
  c3_retry_backoff.1 (fun _ => .error ()) (fun _ => rfl)

/-- C9: the PDF player selection takes at most five players, places players
with a known birthday before players without one, and selects a player
without a birthday only when fewer than five players with birthdays exist. -/
theorem c9_pdf_player_selection :
    ∀ (players : List PRec) (lookup : List ((String × String) × String)),
      (selectPdfPlayers players lookup).length ≤ 5 ∧
      (∃ a b, selectPdfPlayers players lookup = a ++ b ∧
          (∀ p ∈ a, hasBday lookup p = true) ∧
          (∀ p ∈ b, hasBday lookup p = false)) ∧
      (∀ p ∈ selectPdfPlayers players lookup, hasBday lookup p = false →
          (players.filter (hasBday lookup)).length < 5) := by
  intro players lookup
  unfold selectPdfPlayers
  by_cases hlt : ((players.filter (hasBday lookup)).take 5).length < 5
  · rw [if_pos hlt]
    refine ⟨?_,
      ⟨(players.filter (hasBday lookup)).take 5,
        (players.filter (fun p => !(hasBday lookup p))).take
          (5 - ((players.filter (hasBday lookup)).take 5).length),
        rfl, ?_, ?_⟩, ?_⟩
    · rw [List.length_append]
      have h2 := List.length_take_le
        (5 - ((players.filter (hasBday lookup)).take 5).length)
        (players.filter (fun p => !(hasBday lookup p)))
      omega
    · intro p hp
      exact (List.mem_filter.mp (List.take_subset _ _ hp)).2
    · intro p hp
      have hb := (List.mem_filter.mp (List.take_subset _ _ hp)).2
      simpa using hb
    · intro p hp hb
      rw [List.length_take] at hlt
      omega
  · rw [if_neg hlt]
    have hlen : ((players.filter (hasBday lookup)).take 5).length ≤ 5 := by
      rw [List.length_take]; omega
    refine ⟨hlen,
      ⟨(players.filter (hasBday lookup)).take 5, [], by simp, ?_, by simp⟩, ?_⟩
    · intro p hp
      exact (List.mem_filter.mp (List.take_subset _ _ hp)).2
    · intro p hp hb
      have hbt := (List.mem_filter.mp (List.take_subset _ _ hp)).2
      rw [hb] at hbt
      exact absurd hbt (by simp)

/-- C9 witness: the selection bound applied at a concrete seven-player list
with two known birthdays. -/
theorem c9_pdf_player_selection_witness :
    (selectPdfPlayers
        [⟨"A", "a"⟩, ⟨"B", "b"⟩, ⟨"C", "c"⟩, ⟨"D", "d"⟩, ⟨"E", "e"⟩,
         ⟨"F", "f"⟩, ⟨"G", "g"⟩]
        [(("B", "b"), "01.01.2000"), (("F", "f"), "02.02.2002")]).length ≤ 5 :=
  (c9_pdf_player_selection
    [⟨"A", "a"⟩, ⟨"B", "b"⟩, ⟨"C", "c"⟩, ⟨"D", "d"⟩, ⟨"E", "e"⟩,
     ⟨"F", "f"⟩, ⟨"G", "g"⟩]
    [(("B", "b"), "01.01.2000"), (("F", "f"), "02.02.2002")]).1

/-- C10: `parse_date_only` is total — every input yields either a
`DD.MM.YYYY`-formatted date (timestamps and strings matching a supported
format) or the fixed string `"Unknown"` (missing values and unparseable
strings); no parse error propagates. -/
theorem c10_parse_date_only_total :
    (∀ v : PyDateVal, parse_date_only v = "Unknown" ∨
        ∃ d m y, parse_date_only v = formatDMY d m y) ∧
    parse_date_only .nan = "Unknown" ∧
    (∀ d m y, parse_date_only (.ts d m y) = formatDMY d m y) ∧
    (∀ (s : String) (d m y : Nat), parseDateStr s = some (d, m, y) →
        parse_date_only (.str s) = formatDMY d m y) ∧
    (∀ s : String, parseDateStr s = none → parse_date_only (.str s) = "Unknown") ∧
    parse_date_only (.str "01.02.2003 04:05:06") = "01.02.2003" ∧
    parse_date_only (.str "31.02.2020") = "Unknown" := by
  refine ⟨?_, rfl, fun d m y => rfl, ?_, ?_, by decide, by decide⟩
  · intro v
    match v with
    | .nan => exact Or.inl rfl
    | .ts d m y => exact Or.inr ⟨d, m, y, rfl⟩
    | .str s =>
      cases h : parseDateStr s with
      | none => exact Or.inl (by simp [parse_date_only, h])
      | some dmy =>
        exact Or.inr ⟨dmy.1, dmy.2.1, dmy.2.2, by simp [parse_date_only, h]⟩
  · intro s d m y h
    simp [parse_date_only, h]
  · intro s h
    simp [parse_date_only, h]

/-- C10 witness: the fallback case applied at a concrete unparseable string. -/
theorem c10_parse_date_only_witness :
    parse_date_only (.str "not a date") = "Unknown" :=
  c10_parse_date_only_total.2.2.2.2.1 "not a date" (by decide)

/-- C2 (amended): the sequence of `startrow` offsets requested by a league
pagination walk is strictly increasing (the next offset is the first linked
offset strictly greater than the current one); termination relies solely on
some page yielding no such offset — the source has no hard page cap. -/
theorem c2_pagination_offsets_increasing :
    ∀ (server : Nat → LeaguesPageDoc) (seasonId : String) (fuel startRow : Nat),
      List.Chain' (fun a b => a < b)
        (leagueOffsetTrace server seasonId fuel startRow) := by
  intro server seasonId fuel
  induction fuel with
  | zero => intro startRow; simp [leagueOffsetTrace]
  | succ f ih =>
    intro startRow
    unfold leagueOffsetTrace
    cases h : (get_leagues_page seasonId (server startRow) startRow).2 with
    | none => simp
    | some n =>
      rw [List.chain'_cons']
      refine ⟨?_, ih n⟩
      intro y hy
      rw [leagueOffsetTrace_head server seasonId f n] at hy
      have hyn : y = n := by
        have := hy
        simp only [Option.mem_def, Option.some.injEq] at this
        exact this.symm
      rw [hyn]
      exact get_leagues_page_next_gt seasonId (server startRow) startRow n h

set_option maxRecDepth 10000 in
/-- C2 counterexample: against a server whose every page links one offset
further, the league walk is still running after 201 pages — more than the
claimed 200-page cap — and no truncation occurs. -/
theorem c2_no_page_cap_counterexample :
    get_all_leagues fixtureLoopServer "2023" 201 = none ∧
    200 < (leagueOffsetTrace fixtureLoopServer "2023" 201 0).length :=
  ⟨by decide, by decide⟩

/-- C4 (amended): the schedule-page seen-set is scoped to a single page
fetch — within one page of the HTML schedule walk every game number appears
at most once in the output. -/
theorem c4_page_scoped_dedup :
    ∀ (teamName : String) (doc : SchedulePageDoc) (startRow : Nat),
      (((get_schedule_page teamName doc startRow).1).map (fun g => g.nummer)).Nodup := by
  intro teamName doc startRow
  unfold get_schedule_page
  cases h : doc.tables.find? (fun t => t.hasDatumMarker) with
  | none => simp
  | some t => simpa using (schedLoop_numbers_nodup teamName t.rows []).1

/-- C4 counterexample: a two-page walk whose pages both contain game number
12 resolves to two entries with that number, not exactly one — the seen-set
does not extend across pages. -/
theorem c4_walk_dedup_counterexample :
    ((getScheduleWalk fixtureSchedServer "gast" 5 0).map (fun g => g.nummer)).count
        "12" = 2 ∧
    ((getScheduleWalk fixtureSchedServer "gast" 5 0).map (fun g => g.nummer)).count
        "12" ≠ 1 :=
  ⟨by decide, by decide⟩

/-- C5: in the export parsing path, a `"7.0*"` match number is coerced to the
integer 7; rows with a missing match-day or match number or a `*`-marked
match-day are dropped; every produced game comes from an unmarked row and
carries `*`-stripped team names, with the away filter applied to the
stripped name. -/
theorem c5_export_coercion_and_drops :
    pyNumCoerce "7.0*" = some 7 ∧
    (∀ (teamName : String) (r : ExportRow),
        (r.spieltag = none ∨ r.spielnummer = none ∨
          (∃ st, r.spieltag = some st ∧ strEndsWith st "*" = true)) →
        processExportRow teamName r = none) ∧
    (∀ (teamName : String) (rows : List ExportRow) (g : Game),
        g ∈ get_away_games teamName rows →
        ∃ r ∈ rows, ∃ st sn, r.spieltag = some st ∧ strEndsWith st "*" = false ∧
          r.spielnummer = some sn ∧
          g.home_team = pyRstripStar (pyStrip r.heim) ∧
          g.away_team = pyRstripStar (pyStrip r.gast) ∧
          strIn (pyLower teamName) (pyLower (pyRstripStar (pyStrip r.gast))) = true) ∧
    processExportRow "gast" fixtureExportRow =
      some ⟨"1", "7", "01.01.2024 10:00", "Heim", "Gast", ""⟩ := by
  refine ⟨by decide, ?_, ?_, by decide⟩
  · intro teamName r h
    rcases h with h | h | ⟨st, hst, hend⟩
    · cases hsn : r.spielnummer <;> simp [processExportRow, h, hsn]
    · cases hst : r.spieltag <;> simp [processExportRow, hst, h]
    · cases hsn : r.spielnummer <;> simp [processExportRow, hst, hsn, hend]
  · intro teamName rows g hg
    simp only [get_away_games] at hg
    by_cases hall :
        (rows.filterMap (processExportRow teamName)).all
          (fun g => (parseDMYHM g.datum).isSome)
    · rw [if_pos hall] at hg
      have hmem := List.mem_mergeSort.mp hg
      obtain ⟨r, hr, hpr⟩ := List.mem_filterMap.mp hmem
      obtain ⟨st, sn, h1, h2, h3, h4, h5, h6⟩ :=
        processExportRow_some teamName r g hpr
      exact ⟨r, hr, st, sn, h1, h2, h3, h4, h5, h6⟩
    · rw [if_neg hall] at hg
      simp at hg

/-- C5 witness: the row-dropping rule applied at a row with a missing
match-day. -/
theorem c5_export_coercion_witness :
    processExportRow "x" ⟨none, some "1", "d", "h", "g", none⟩ = none :=
  c5_export_coercion_and_drops.2.1 "x" ⟨none, some "1", "d", "h", "g", none⟩
    (Or.inl rfl)

/-- C6 (amended): both strategies share the `Game` record shape and the
case-insensitive away-team substring filter; the export strategy sorts its
output ascending by parsed date-time, while the HTML page strategy returns
games in document order without sorting. -/
theorem c6_shape_filter_sort :
    (∀ (teamName : String) (rows : List ExportRow),
        (get_away_games teamName rows).Pairwise
          (fun a b => gameKey a ≤ gameKey b)) ∧
    (∀ (teamName : String) (rows : List ExportRow) (g : Game),
        g ∈ get_away_games teamName rows →
        strIn (pyLower teamName) (pyLower g.away_team) = true) ∧
    (∀ (teamName : String) (doc : SchedulePageDoc) (startRow : Nat) (g : Game),
        g ∈ (get_schedule_page teamName doc startRow).1 →
        strIn (pyLower teamName) (pyLower g.away_team) = true) := by
  refine ⟨?_, ?_, ?_⟩
  · intro teamName rows
    simp only [get_away_games]
    by_cases hall :
        (rows.filterMap (processExportRow teamName)).all
          (fun g => (parseDMYHM g.datum).isSome)
    · rw [if_pos hall]
      have hs := @List.sorted_mergeSort Game
        (fun a b => decide (gameKey a ≤ gameKey b))
        (fun a b c hab hbc => by
          simp only [decide_eq_true_eq] at hab hbc ⊢
          omega)
        (fun a b => by
          simp only [Bool.or_eq_true, decide_eq_true_eq]
          omega)
        (rows.filterMap (processExportRow teamName))
      exact hs.imp (fun h => of_decide_eq_true h)
    · rw [if_neg hall]
      simp
  · intro teamName rows g hg
    simp only [get_away_games] at hg
    by_cases hall :
        (rows.filterMap (processExportRow teamName)).all
          (fun g => (parseDMYHM g.datum).isSome)
    · rw [if_pos hall] at hg
      obtain ⟨r, hr, hpr⟩ := List.mem_filterMap.mp (List.mem_mergeSort.mp hg)
      obtain ⟨st, sn, _, _, _, _, hat, hin⟩ :=
        processExportRow_some teamName r g hpr
      rw [hat]
      exact hin
    · rw [if_neg hall] at hg
      simp at hg
  · intro teamName doc startRow g hg
    unfold get_schedule_page at hg
    cases h : doc.tables.find? (fun t => t.hasDatumMarker) with
    | none => rw [h] at hg; simp at hg
    | some t =>
      rw [h] at hg
      obtain ⟨r, hr, c0, c1, c2, c3, c4, c5, rest, hcells, hstruck, hteam, hgame⟩ :=
        schedLoop_mem teamName t.rows [] g hg
      rw [hgame]
      exact hteam

/-- C6 counterexample: a schedule page listing its two games in reverse
chronological order is returned unsorted by the HTML strategy. -/
theorem c6_html_unsorted_counterexample :
    ¬ ((get_schedule_page "gast" fixtureSortPage 0).1.Pairwise
        (fun a b => gameKey a ≤ gameKey b)) := by
  decide

/-- C6 witness: the shared away-team filter evaluated on a concrete export
game. -/
theorem c6_shape_filter_sort_witness :
    strIn (pyLower "gast")
      (pyLower (Game.away_team ⟨"1", "7", "01.01.2024 10:00", "Heim", "Gast", ""⟩)) =
      true :=
  c6_shape_filter_sort.2.1 "gast" [fixtureExportRow]
    ⟨"1", "7", "01.01.2024 10:00", "Heim", "Gast", ""⟩ (by
      simp only [get_away_games]
      rw [if_pos (by decide)]
      rw [List.mem_mergeSort]
      decide)

/-- C7: the liga-table extractor selects a table whose header cells contain
all required tokens (in any order, among extra cells) whenever one exists,
and a document with no such table — or no `ligaliste` form — yields an empty
record list rather than an exception; the fixture shows a scrambled header
with decorative cells being selected and decoded. -/
theorem c7_liga_table_selection :
    (∀ (tables : List LigaTable) (t : LigaTable),
        findLigaTable tables = some t →
        ∀ h ∈ requiredLigaHeaders, h ∈ t.headerTexts) ∧
    (∀ tables : List LigaTable, (∃ t ∈ tables, ligaHeaderMatch t = true) →
        (findLigaTable tables).isSome = true) ∧
    (∀ doc : LigaDoc, (∀ t ∈ doc.tables, ligaHeaderMatch t = false) →
        parse_liga_data doc = []) ∧
    parse_liga_data fixtureLigaDoc =
      [⟨"KL", "U12", "m", "BZ", "KR", "Liga A", "7", some "4711"⟩] := by
  refine ⟨?_, ?_, ?_, by decide⟩
  · intro tables t hfind h hh
    have hmatch := List.find?_some hfind
    unfold ligaHeaderMatch at hmatch
    rw [List.all_eq_true] at hmatch
    have := hmatch h hh
    exact of_decide_eq_true this
  · intro tables hex
    unfold findLigaTable
    rw [List.find?_isSome]
    exact hex
  · intro doc hnone
    unfold parse_liga_data
    by_cases hf : doc.hasLigaListe
    · rw [if_pos hf]
      have hmt : findLigaTable doc.tables = none := by
        unfold findLigaTable
        rw [List.find?_eq_none]
        intro t ht
        simp [hnone t ht]
      rw [hmt]
    · rw [if_neg hf]

/-- C7 witness: the empty-result rule applied at a document whose only table
lacks the header signature. -/
theorem c7_liga_table_selection_witness :
    parse_liga_data ⟨true, [⟨["Rang", "Name"], []⟩]⟩ = [] :=
  c7_liga_table_selection.2.2.1 ⟨true, [⟨["Rang", "Name"], []⟩]⟩ (by decide)

/-- C8: struck-through rows never reach the extracted output — a standings
row whose name cell is struck yields no team and every extracted team comes
from an unstruck row; every HTML schedule game comes from a row whose first
cell is unstruck; and every export game comes from a row without the `*`
withdrawal marker on its match-day. -/
theorem c8_struck_rows_excluded :
    (∀ (cells : List TCell) (c0 c1 : TCell) (rest : List TCell),
        cells = c0 :: c1 :: rest → c1.struck = true → teamOfRow cells = none) ∧
    (∀ (doc : TeamsDoc) (tm : Team), tm ∈ get_league_teams doc →
        ∃ tbl, doc.tables.find? (fun t => t.hasRangHeader) = some tbl ∧
          ∃ r ∈ tbl.rows, ∃ c0 c1 rest, r.cells = c0 :: c1 :: rest ∧
            c1.struck = false ∧ teamOfRow r.cells = some tm) ∧
    (∀ (teamName : String) (doc : SchedulePageDoc) (startRow : Nat) (g : Game),
        g ∈ (get_schedule_page teamName doc startRow).1 →
        ∃ tbl, doc.tables.find? (fun t => t.hasDatumMarker) = some tbl ∧
          ∃ r ∈ tbl.rows, ∃ c0 c1 c2 c3 c4 c5 rest,
            r.cells = c0 :: c1 :: c2 :: c3 :: c4 :: c5 :: rest ∧
            c0.struck = false) ∧
    (∀ (teamName : String) (rows : List ExportRow) (g : Game),
        g ∈ get_away_games teamName rows →
        ∃ r ∈ rows, ∃ st, r.spieltag = some st ∧ strEndsWith st "*" = false) := by
  refine ⟨?_, ?_, ?_, ?_⟩
  · intro cells c0 c1 rest hc hs
    subst hc
    simp [teamOfRow, hs]
  · intro doc tm hmem
    unfold get_league_teams at hmem
    cases hfind : doc.tables.find? (fun t => t.hasRangHeader) with
    | none => rw [hfind] at hmem; simp at hmem
    | some tbl =>
      rw [hfind] at hmem
      obtain ⟨r, hr, hrow⟩ := List.mem_filterMap.mp hmem
      obtain ⟨c0, c1, rest, hcells, hstruck⟩ := teamOfRow_some r.cells tm hrow
      exact ⟨tbl, rfl, r, hr, c0, c1, rest, hcells, hstruck, hrow⟩
  · intro teamName doc startRow g hg
    unfold get_schedule_page at hg
    cases hfind : doc.tables.find? (fun t => t.hasDatumMarker) with
    | none => rw [hfind] at hg; simp at hg
    | some tbl =>
      rw [hfind] at hg
      obtain ⟨r, hr, c0, c1, c2, c3, c4, c5, rest, hcells, hstruck, _, _⟩ :=
        schedLoop_mem teamName tbl.rows [] g hg
      exact ⟨tbl, rfl, r, hr, c0, c1, c2, c3, c4, c5, rest, hcells, hstruck⟩
  · intro teamName rows g hg
    simp only [get_away_games] at hg
    by_cases hall :
        (rows.filterMap (processExportRow teamName)).all
          (fun g => (parseDMYHM g.datum).isSome)
    · rw [if_pos hall] at hg
      obtain ⟨r, hr, hpr⟩ := List.mem_filterMap.mp (List.mem_mergeSort.mp hg)
      obtain ⟨st, sn, h1, h2, _⟩ := processExportRow_some teamName r g hpr
      exact ⟨r, hr, st, h1, h2⟩
    · rw [if_neg hall] at hg
      simp at hg

/-- C8 witness: the struck-name rule applied at a concrete standings row. -/
theorem c8_struck_rows_excluded_witness :
    teamOfRow [⟨"1", false⟩, ⟨"X", true⟩] = none :=
  c8_struck_rows_excluded.1 [⟨"1", false⟩, ⟨"X", true⟩] ⟨"1", false⟩ ⟨"X", true⟩ []
    rfl rfl

end PyHuddle
